import Mathlib

/-!
Verification of the WAT lexer (`crates/parser/src/lexer.rs`).

The lexer is shallowly embedded: the input is a `List Char`, positions are
byte offsets (each consumed character advances the position by its UTF-8
size, matching `str::CharIndices`), and source spans are represented by the
list of characters they cover.  Stateful iteration becomes explicit state
passing through the `Lexer` structure, and fallible scanning returns
`Except LexError`.
-/

set_option autoImplicit false

deriving instance DecidableEq for Except

namespace Wast

/-- Brace characters, written via code points. -/
def lbrace : Char := Char.ofNat 123

/-- Closing brace character. -/
def rbrace : Char := Char.ofNat 125

/-- Backtick character. -/
def backtick : Char := Char.ofNat 96

/-- Apostrophe character. -/
def apostrophe : Char := Char.ofNat 39

/-- Byte length of a span of characters (UTF-8). -/
def utf8Len (s : List Char) : Nat := (s.map Char.utf8Size).sum

/-- UTF-8 encoding of a unicode code point, as in Rust `char::encode_utf8`. -/
def utf8BytesNat (n : Nat) : List UInt8 :=
  if n < 0x80 then [UInt8.ofNat n]
  else if n < 0x800 then
    [UInt8.ofNat (0xC0 + n / 64), UInt8.ofNat (0x80 + n % 64)]
  else if n < 0x10000 then
    [UInt8.ofNat (0xE0 + n / 4096), UInt8.ofNat (0x80 + (n / 64) % 64),
     UInt8.ofNat (0x80 + n % 64)]
  else
    [UInt8.ofNat (0xF0 + n / 262144), UInt8.ofNat (0x80 + (n / 4096) % 64),
     UInt8.ofNat (0x80 + (n / 64) % 64), UInt8.ofNat (0x80 + n % 64)]

/-- UTF-8 encoding of a character. -/
def utf8Bytes (c : Char) : List UInt8 := utf8BytesNat c.toNat

/-- Rust `char::is_ascii_hexdigit`. -/
def isHexDigit (c : Char) : Bool :=
  c.isDigit || ('a' ≤ c && c ≤ 'f') || ('A' ≤ c && c ≤ 'F')

/-- Rust `to_hex` (lexer.rs line 789): hex digit value of a character. -/
def to_hex (c : Char) : Nat :=
  if 'a' ≤ c && c ≤ 'f' then c.toNat - 'a'.toNat + 10
  else if 'A' ≤ c && c ≤ 'F' then c.toNat - 'A'.toNat + 10
  else c.toNat - '0'.toNat

/-- Rust `is_idchar` (lexer.rs line 797). -/
def is_idchar (c : Char) : Bool :=
  ('0' ≤ c && c ≤ '9') || ('a' ≤ c && c ≤ 'z') || ('A' ≤ c && c ≤ 'Z') ||
  c = '!' || c = '#' || c = '$' || c = '%' || c = '&' || c = apostrophe ||
  c = '*' || c = '+' || c = '-' || c = '.' || c = '/' || c = ':' ||
  c = '<' || c = '=' || c = '>' || c = '?' || c = '@' || c = '\\' ||
  c = '^' || c = '_' || c = backtick || c = '|' || c = '~'

/-- The kinds of lexing errors, mirroring `LexErrorKind` (lexer.rs line 134). -/
inductive LexErrorKind where
  | DanglingBlockComment
  | Unexpected (c : Char)
  | InvalidStringElement (c : Char)
  | InvalidStringEscape (c : Char)
  | InvalidHexDigit (c : Char)
  | InvalidDigit (c : Char)
  | Expected (wanted : Char) (found : Char)
  | UnexpectedEof
  | NumberTooBig
  | InvalidUnicodeValue (n : Nat)
  | LoneUnderscore
deriving DecidableEq, Repr

/-- A lexing error: the byte position it is anchored at, and its kind.
The line/column fields of the Rust `LexError` are derived from `pos` by
rescanning the input and are not modelled. -/
structure LexError where
  pos : Nat
  kind : LexErrorKind
deriving DecidableEq, Repr

/-- The value of a lexed string literal, mirroring `Cow<[u8]>`: either a
borrowed view of the characters strictly between the quotes (fast path,
no escapes seen), or an owned, materialized byte buffer. -/
inductive StrVal where
  | borrowed (s : List Char)
  | owned (b : List UInt8)
deriving DecidableEq, Repr

/-- The byte payload denoted by a string value. -/
def StrVal.bytes : StrVal → List UInt8
  | .borrowed s => (s.map utf8Bytes).flatten
  | .owned b => b

/-- A parsed integer, mirroring `Integer` (lexer.rs line 188). -/
structure Integer where
  src : List Char
  val : List Char
  hex : Bool
deriving DecidableEq, Repr

/-- Possible parsed float values, mirroring `FloatVal` (lexer.rs line 205). -/
inductive FloatVal where
  | Nan (val : Option Nat) (negative : Bool)
  | Inf (negative : Bool)
  | Val (hex : Bool) (integral : List Char) (decimal : Option (List Char))
      (exponent : Option (List Char))
deriving DecidableEq, Repr

/-- A parsed float, mirroring `Float` (lexer.rs line 198). -/
structure Float where
  src : List Char
  val : FloatVal
deriving DecidableEq, Repr

/-- The kinds of tokens, mirroring `Token` (lexer.rs line 62). -/
inductive Token where
  | LParen (s : List Char)
  | RParen (s : List Char)
  | String (val : StrVal) (src : List Char)
  | Id (s : List Char)
  | Keyword (s : List Char)
  | Reserved (s : List Char)
  | Integer (i : Integer)
  | Float (f : Float)
deriving DecidableEq, Repr

/-- The kinds of comments, mirroring `Comment` (lexer.rs line 104). -/
inductive Comment where
  | Line (s : List Char)
  | Block (s : List Char)
deriving DecidableEq, Repr

/-- A fragment of source, mirroring `Source` (lexer.rs line 50). -/
inductive Source where
  | Comment (c : Comment)
  | Whitespace (s : List Char)
  | Token (t : Token)
deriving DecidableEq, Repr

/-- Original source text of an integer (lexer.rs line 758). -/
def Integer.source : Integer → List Char := Integer.src

/-- Original source text of a float (lexer.rs line 771). -/
def Float.source : Float → List Char := Float.src

/-- Original source text of a comment (`Comment::src`, lexer.rs line 732). -/
def Comment.src : Comment → List Char
  | .Line s => s
  | .Block s => s

/-- Original source text of a token (`Token::src`, lexer.rs line 742). -/
def Token.src : Token → List Char
  | .LParen s => s
  | .RParen s => s
  | .String _ src => src
  | .Id s => s
  | .Keyword s => s
  | .Reserved s => s
  | .Integer i => i.src
  | .Float f => f.src

/-- Original source text of a fragment (`Source::src`, lexer.rs line 721). -/
def Source.src : Source → List Char
  | .Comment c => c.src
  | .Whitespace s => s
  | .Token t => t.src

/-- Lexer state: the remaining input characters and the byte offset of the
next character (the `Peekable<CharIndices>` cursor of the Rust `Lexer`). -/
structure Lexer where
  rem : List Char
  pos : Nat
deriving DecidableEq, Repr

/-- Loop of `skip_undescores` (lexer.rs line 451): consume digits and
underscores, collecting the digits; returns the collected digits, the
unconsumed rest, and whether the last consumed character was an
underscore. -/
def skipUnderscoresLoop (good : Char → Bool) : List Char → Bool → (List Char × List Char × Bool)
  | [], lastU => ([], [], lastU)
  | c :: rest, lastU =>
    if c = '_' then skipUnderscoresLoop good rest true
    else if good c then
      let r := skipUnderscoresLoop good rest false
      (c :: r.1, r.2.1, r.2.2)
    else ([], c :: rest, lastU)

/-- Rust `skip_undescores` (lexer.rs line 427): parse a digit run that may
contain underscores.  The first character must be a valid digit; a trailing
underscore (one not followed by another consumed digit) fails.  On success
returns the collected digits (with a leading minus sign when `negative`)
and the unconsumed rest of the input. -/
def skip_undescores (negative : Bool) (good : Char → Bool) (s : List Char) :
    Option (List Char × List Char) :=
  match s with
  | [] => none
  | first :: rest =>
    if good first then
      let r := skipUnderscoresLoop good rest false
      if r.2.2 then none
      else some ((if negative then '-' :: first :: r.1 else first :: r.1), r.2.1)
    else none

/-- Rust `Lexer::number` (lexer.rs line 313): classify a raw identifier
character run as an integer or float literal, or `none` to reclassify. -/
def number (src : List Char) : Option Token :=
  let sn : Bool × List Char :=
    match src with
    | '+' :: rest => (false, rest)
    | '-' :: rest => (true, rest)
    | _ => (false, src)
  let negative := sn.1
  let num := sn.2
  if num = ("inf".data) then some (.Float ⟨src, .Inf negative⟩)
  else if num = ("nan".data) then some (.Float ⟨src, .Nan none negative⟩)
  else if num.take 6 = ("nan:0x".data) then
    match skip_undescores false isHexDigit (num.drop 6) with
    | none => none
    | some (toParse, r) =>
      if r.isEmpty then
        let n := toParse.foldl (fun a c => 16 * a + to_hex c) 0
        if n < 2 ^ 64 then some (.Float ⟨src, .Nan (some n) negative⟩) else none
      else none
  else
    let iht : List Char × Bool × (Char → Bool) :=
      if num.take 2 = ("0x".data) then (num.drop 2, true, isHexDigit)
      else (num, false, Char.isDigit)
    let hex := iht.2.1
    let good := iht.2.2
    match skip_undescores negative good iht.1 with
    | none => none
    | some (val, it1) =>
      match it1 with
      | [] => some (.Integer ⟨src, val, hex⟩)
      | _ =>
        let dres : Option (Option (List Char) × List Char) :=
          match it1 with
          | '.' :: it1' =>
            match it1' with
            | c :: _ =>
              if good c then
                match skip_undescores false good it1' with
                | some (d, r) => some (some d, r)
                | none => none
              else some (none, it1')
            | [] => some (none, it1')
          | _ => some (none, it1)
        match dres with
        | none => none
        | some (decimal, it2) =>
          match it2 with
          | [] => some (.Float ⟨src, .Val hex val decimal none⟩)
          | m :: it3 =>
            if (hex && (m = 'p' || m = 'P')) || (!hex && (m = 'e' || m = 'E')) then
              let st : Bool × List Char :=
                match it3 with
                | '-' :: r => (true, r)
                | '+' :: r => (false, r)
                | _ => (false, it3)
              match skip_undescores st.1 Char.isDigit st.2 with
              | none => none
              | some (e, it5) =>
                if it5.isEmpty then
                  some (.Float ⟨src, .Val hex val decimal (some e)⟩)
                else none
            else none

/-- Rust `Lexer::ws` character class (lexer.rs line 486). -/
def isWsChar (c : Char) : Bool := c = ' ' || c = '\n' || c = '\r' || c = '\t'

/-- Rust `Lexer::ws` (lexer.rs line 482): consume a maximal whitespace run. -/
def ws (st : Lexer) : Option (List Char) × Lexer :=
  let w := st.rem.takeWhile isWsChar
  if w.isEmpty then (none, st)
  else (some w, ⟨st.rem.dropWhile isWsChar, st.pos + utf8Len w⟩)

/-- Body of the block comment loop (lexer.rs line 513): scan with a nesting
level, returning the consumed characters (through the matching `;)`) and
the rest, or `none` when end of input is reached first. -/
def blockComment : List Char → Nat → Option (List Char × List Char)
  | [], _ => none
  | ';' :: ')' :: rest, level =>
    if level = 1 then some ([';', ')'], rest)
    else
      match blockComment rest (level - 1) with
      | some (a, b) => some (';' :: ')' :: a, b)
      | none => none
  | '(' :: ';' :: rest, level =>
    match blockComment rest (level + 1) with
    | some (a, b) => some ('(' :: ';' :: a, b)
    | none => none
  | c :: rest, level =>
    match blockComment rest level with
    | some (a, b) => some (c :: a, b)
    | none => none

/-- Rust `Lexer::comment` (lexer.rs line 501): line and block comments. -/
def comment (st : Lexer) : Except LexError (Option Comment × Lexer) :=
  match st.rem with
  | ';' :: ';' :: rest =>
    let body := rest.takeWhile (fun c => c ≠ '\n')
    .ok (some (.Line (';' :: ';' :: body)),
      ⟨rest.dropWhile (fun c => c ≠ '\n'), st.pos + 2 + utf8Len body⟩)
  | '(' :: ';' :: rest =>
    match blockComment rest 1 with
    | some (a, b) => .ok (some (.Block ('(' :: ';' :: a)), ⟨b, st.pos + 2 + utf8Len a⟩)
    | none => .error ⟨st.pos, .DanglingBlockComment⟩
  | _ => .ok (none, st)

/-- The accumulation state of `Lexer::string` (lexer.rs line 535): either
still on the zero-copy fast path (recording the characters passed over
since the opening quote), or a materialized byte buffer. -/
inductive StrState where
  | start (acc : List Char)
  | buf (b : List UInt8)
deriving DecidableEq, Repr

/-- Materialize the accumulated state into a byte buffer, as done when the
first escape is encountered (lexer.rs line 546). -/
def StrState.toBuf : StrState → List UInt8
  | .start acc => (acc.map utf8Bytes).flatten
  | .buf b => b

/-- Final string value at the closing quote (lexer.rs line 596). -/
def StrState.finish : StrState → StrVal
  | .start acc => .borrowed acc
  | .buf b => .owned b

/-- Control mode of the string scanning loop, fusing `Lexer::string`
(lexer.rs line 540) and `Lexer::hexnum` (lexer.rs line 602) into a machine
that consumes exactly one character per step.  `normal` is the main loop;
`esc` has just consumed a backslash; `uBrace` has consumed the `u` of a
unicode escape and expects the opening brace; `hex2` has consumed the first
of two hex digits of a byte escape; `uFirst` expects the mandatory first
hex digit of `hexnum`; `uRest` is the digit-accumulation loop of `hexnum`,
folding digits into the 32-bit accumulator `n`, skipping underscores but
rejecting a trailing one.  `iu` is the byte offset of the `u` of the escape
(where an invalid scalar error is anchored) and `b` the materialized byte
buffer so far. -/
inductive StrMode where
  | normal (state : StrState)
  | esc (b : List UInt8)
  | uBrace (iu : Nat) (b : List UInt8)
  | hex2 (b : List UInt8) (c1 : Char)
  | uFirst (iu : Nat) (b : List UInt8)
  | uRest (iu : Nat) (b : List UInt8) (n : Nat) (lastU : Bool)
deriving DecidableEq, Repr

/-- Whether `char::from_u32` succeeds: a valid unicode scalar value. -/
def isValidScalar (n : Nat) : Bool :=
  decide (n < 0xD800) || (decide (0xDFFF < n) && decide (n < 0x110000))

/-- Outcome of one step of the string scanning machine. -/
inductive StrStep where
  | err (e : LexError)
  | done (v : StrVal)
  | cont (m : StrMode)

/-- One step of the string scanning machine on the character `c` at byte
offset `pos`: the branch structure of `Lexer::string` (lexer.rs line 540)
and of `Lexer::hexnum` (lexer.rs line 602), one consumed character at a
time. -/
def stringStep (c : Char) (pos : Nat) : StrMode → StrStep
  | .normal state =>
    if c = '\\' then .cont (.esc state.toBuf)
    else if c = '"' then .done state.finish
    else if c.toNat < 0x20 ∨ c.toNat = 0x7f then .err ⟨pos, .InvalidStringElement c⟩
    else
      match state with
      | .start acc => .cont (.normal (.start (acc ++ [c])))
      | .buf b => .cont (.normal (.buf (b ++ utf8Bytes c)))
  | .esc b =>
    if c = '"' then .cont (.normal (.buf (b ++ [34])))
    else if c = apostrophe then .cont (.normal (.buf (b ++ [39])))
    else if c = 't' then .cont (.normal (.buf (b ++ [9])))
    else if c = 'n' then .cont (.normal (.buf (b ++ [10])))
    else if c = 'r' then .cont (.normal (.buf (b ++ [13])))
    else if c = '\\' then .cont (.normal (.buf (b ++ [92])))
    else if c = 'u' then .cont (.uBrace pos b)
    else if isHexDigit c then .cont (.hex2 b c)
    else .err ⟨pos, .InvalidStringEscape c⟩
  | .uBrace iu b =>
    if c = lbrace then .cont (.uFirst iu b)
    else .err ⟨pos, .Expected lbrace c⟩
  | .hex2 b c1 =>
    if isHexDigit c then
      .cont (.normal (.buf (b ++ [UInt8.ofNat (to_hex c1 * 16 + to_hex c)])))
    else .err ⟨pos, .InvalidHexDigit c⟩
  | .uFirst iu b =>
    if isHexDigit c then .cont (.uRest iu b (to_hex c) false)
    else .err ⟨pos, .InvalidHexDigit c⟩
  | .uRest iu b n lastU =>
    if c = '_' then .cont (.uRest iu b n true)
    else if isHexDigit c then
      if 2 ^ 32 ≤ 16 * n + to_hex c then .err ⟨pos, .NumberTooBig⟩
      else .cont (.uRest iu b (16 * n + to_hex c) false)
    else if lastU then .err ⟨pos, .LoneUnderscore⟩
    else if isValidScalar n then
      if c = rbrace then .cont (.normal (.buf (b ++ utf8BytesNat n)))
      else .err ⟨pos, .Expected rbrace c⟩
    else .err ⟨iu, .InvalidUnicodeValue n⟩

/-- The error raised when end of input is reached in a given mode, at byte
offset `pos` (the byte length of the whole input).  Mirrors the
end-of-input arms of `Lexer::string` and `Lexer::hexnum`. -/
def stringEof (pos : Nat) : StrMode → LexError
  | .normal _ => ⟨pos, .UnexpectedEof⟩
  | .esc _ => ⟨pos, .UnexpectedEof⟩
  | .uBrace _ _ => ⟨pos, .UnexpectedEof⟩
  | .hex2 _ _ => ⟨pos, .UnexpectedEof⟩
  | .uFirst _ _ => ⟨pos, .UnexpectedEof⟩
  | .uRest iu _ n lastU =>
    if lastU then ⟨pos, .LoneUnderscore⟩
    else if isValidScalar n then ⟨pos, .UnexpectedEof⟩
    else ⟨iu, .InvalidUnicodeValue n⟩

/-- Loop of `Lexer::string` (lexer.rs line 540): consume characters until
the closing quote, decoding escapes via the step machine.  Returns the
string value, the consumed characters (including the closing quote), the
rest of the input, and the new position. -/
def stringLoop : List Char → Nat → StrMode → Except LexError (StrVal × List Char × List Char × Nat)
  | [], pos, m => .error (stringEof pos m)
  | c :: rest, pos, m =>
    match stringStep c pos m with
    | .err e => .error e
    | .done v => .ok (v, [c], rest, pos + c.utf8Size)
    | .cont m' =>
      match stringLoop rest (pos + c.utf8Size) m' with
      | .error err => .error err
      | .ok (v, cons, r, p) => .ok (v, c :: cons, r, p)

/-- Classification of a raw identifier character run (lexer.rs lines
302-310): first attempt the numeric grammar; on fallthrough, an `Id` when
the run starts with `$` and is longer than one character, a `Keyword` when
it starts with an ASCII lowercase letter, and `Reserved` otherwise. -/
def classifyRun (first : Char) (run : List Char) : Token :=
  match number run with
  | some t => t
  | none =>
    if first = '$' ∧ 1 < run.length then .Id run
    else if 'a' ≤ first && first ≤ 'z' then .Keyword run
    else .Reserved run

/-- Rust `Lexer::token` (lexer.rs line 270): parens, strings, and raw
identifier character runs classified by `classifyRun`. -/
def token (st : Lexer) : Except LexError (Option Token × Lexer) :=
  match st.rem with
  | [] => .ok (none, st)
  | c :: rest =>
    if c = '(' then .ok (some (.LParen ['(']), ⟨rest, st.pos + 1⟩)
    else if c = ')' then .ok (some (.RParen [')']), ⟨rest, st.pos + 1⟩)
    else if c = '"' then
      match stringLoop rest (st.pos + 1) (.normal (.start [])) with
      | .error e => .error e
      | .ok (v, cons, rest', pos') =>
        .ok (some (.String v ('"' :: cons)), ⟨rest', pos'⟩)
    else if is_idchar c then
      let run := st.rem.takeWhile is_idchar
      .ok (some (classifyRun c run), ⟨st.rem.dropWhile is_idchar, st.pos + utf8Len run⟩)
    else .error ⟨st.pos, .Unexpected c⟩

/-- Rust `Lexer::parse` (lexer.rs line 254): the top-level dispatch
producing one fragment per call. -/
def parse (st : Lexer) : Except LexError (Option Source × Lexer) :=
  match ws st with
  | (some w, st') => .ok (some (.Whitespace w), st')
  | (none, _) =>
    match comment st with
    | .error e => .error e
    | .ok (some c, st') => .ok (some (.Comment c), st')
    | .ok (none, _) =>
      match token st with
      | .error e => .error e
      | .ok (some t, st') => .ok (some (.Token t), st')
      | .ok (none, _) =>
        match st.rem with
        | c :: _ => .error ⟨st.pos, .Unexpected c⟩
        | [] => .ok (none, st)

/-- Repeated calls to `parse` until it returns no fragment, collecting each
fragment with the position it starts at.  Fuel-indexed; `ok none` means the
fuel ran out before the input was exhausted. -/
def lexAll : Nat → Lexer → Except LexError (Option (List (Nat × Source) × Lexer))
  | 0, _ => .ok none
  | fuel + 1, st =>
    match parse st with
    | .error e => .error e
    | .ok (none, st') => .ok (some ([], st'))
    | .ok (some f, st') =>
      match lexAll fuel st' with
      | .error e => .error e
      | .ok none => .ok none
      | .ok (some (l, stf)) => .ok (some ((st.pos, f) :: l, stf))

/-- Position-annotated fragments are contiguous from a start offset: each
fragment starts where the previous one ended, with a non-empty span. -/
def contiguousB : Nat → List (Nat × Source) → Bool
  | _, [] => true
  | p, (q, f) :: rest =>
    p == q && !f.src.isEmpty && contiguousB (q + utf8Len f.src) rest

/-- Whether an error kind is `InvalidDigit`. -/
def LexErrorKind.isInvalidDigit : LexErrorKind → Bool
  | .InvalidDigit _ => true
  | _ => false

/-- A lexing result does not carry an `InvalidDigit` error. -/
def noInvalidDigit {α : Type} (r : Except LexError α) : Bool :=
  match r with
  | .error e => !e.kind.isInvalidDigit
  | .ok _ => true

@[simp] theorem utf8Len_nil : utf8Len [] = 0 := rfl

@[simp] theorem utf8Len_cons (c : Char) (s : List Char) :
    utf8Len (c :: s) = c.utf8Size + utf8Len s := by
  simp [utf8Len]

@[simp] theorem utf8Len_append (a b : List Char) :
    utf8Len (a ++ b) = utf8Len a + utf8Len b := by
  simp [utf8Len]

@[simp] theorem utf8Size_quote : ('"').utf8Size = 1 := rfl

@[simp] theorem utf8Size_backslash : ('\\').utf8Size = 1 := rfl

@[simp] theorem utf8Size_apostrophe : apostrophe.utf8Size = 1 := rfl

@[simp] theorem utf8Size_t : ('t').utf8Size = 1 := rfl

@[simp] theorem utf8Size_n : ('n').utf8Size = 1 := rfl

@[simp] theorem utf8Size_r : ('r').utf8Size = 1 := rfl

@[simp] theorem utf8Size_u : ('u').utf8Size = 1 := rfl

@[simp] theorem utf8Size_lbrace : lbrace.utf8Size = 1 := rfl

@[simp] theorem utf8Size_rbrace : rbrace.utf8Size = 1 := rfl

@[simp] theorem utf8Size_underscore : ('_').utf8Size = 1 := rfl

@[simp] theorem utf8Size_semi : (';').utf8Size = 1 := rfl

@[simp] theorem utf8Size_lparen : ('(').utf8Size = 1 := rfl

@[simp] theorem utf8Size_rparen : (')').utf8Size = 1 := rfl

theorem blockComment_split (l : List Char) (lvl : Nat) (a b : List Char)
    (h : blockComment l lvl = some (a, b)) : l = a ++ b := by
  induction l, lvl using blockComment.induct generalizing a b <;>
    simp_all [blockComment] <;>
    (obtain ⟨h1, h2⟩ := h) <;> subst h1 <;> subst h2 <;> simp_all

theorem ws_split (st : Lexer) (w : List Char) (st' : Lexer) (h : ws st = (some w, st')) :
    st.rem = w ++ st'.rem ∧ st'.pos = st.pos + utf8Len w ∧ w ≠ [] := by
  simp only [ws] at h
  split at h
  · simp_all
  · rename_i hne
    simp only [Prod.mk.injEq, Option.some.injEq] at h
    obtain ⟨h1, h2⟩ := h
    subst h1
    subst h2
    refine ⟨(List.takeWhile_append_dropWhile isWsChar st.rem).symm, rfl, ?_⟩
    simpa [List.isEmpty_iff] using hne

theorem comment_split (st : Lexer) (c : Comment) (st' : Lexer)
    (h : comment st = .ok (some c, st')) :
    st.rem = c.src ++ st'.rem ∧ st'.pos = st.pos + utf8Len c.src ∧ c.src ≠ [] := by
  unfold comment at h
  split at h
  · rename_i rest heq
    simp only [Except.ok.injEq, Prod.mk.injEq, Option.some.injEq] at h
    obtain ⟨h1, h2⟩ := h
    subst h1
    subst h2
    refine ⟨?_, by simp [Comment.src]; omega, by simp [Comment.src]⟩
    simp [heq, Comment.src, List.takeWhile_append_dropWhile]
  · rename_i rest heq
    split at h
    · rename_i a b hbc
      simp only [Except.ok.injEq, Prod.mk.injEq, Option.some.injEq] at h
      obtain ⟨h1, h2⟩ := h
      subst h1
      subst h2
      have := blockComment_split rest 1 a b hbc
      refine ⟨by simp [heq, Comment.src, this], by simp [Comment.src]; omega,
        by simp [Comment.src]⟩
    · simp at h
  · simp at h

set_option maxHeartbeats 1600000 in
theorem number_src (run : List Char) (t : Token) (h : number run = some t) :
    t.src = run := by
  simp only [number] at h
  repeat' split at h
  all_goals try cases h
  all_goals rfl

theorem stringLoop_split (rem : List Char) : ∀ (pos : Nat) (m : StrMode)
    (v : StrVal) (cons r : List Char) (p : Nat),
    stringLoop rem pos m = .ok (v, cons, r, p) →
    rem = cons ++ r ∧ p = pos + utf8Len cons := by
  induction rem with
  | nil =>
    intro pos m v cons r p h
    simp [stringLoop] at h
  | cons c rest ih =>
    intro pos m v cons r p h
    simp only [stringLoop] at h
    split at h
    · cases h
    · simp only [Except.ok.injEq, Prod.mk.injEq] at h
      obtain ⟨rfl, rfl, rfl, rfl⟩ := h
      simp
    · split at h
      · cases h
      · simp only [Except.ok.injEq, Prod.mk.injEq] at h
        obtain ⟨rfl, rfl, rfl, rfl⟩ := h
        obtain ⟨ih1, ih2⟩ := ih _ _ _ _ _ _ (by assumption)
        subst ih1
        refine ⟨by simp, by simp [ih2]; omega⟩

theorem classifyRun_src (first : Char) (run : List Char) :
    (classifyRun first run).src = run := by
  unfold classifyRun
  split
  · rename_i t2 hnum
    exact number_src run t2 hnum
  · split
    · rfl
    · split <;> rfl

theorem token_split (st : Lexer) (t : Token) (st' : Lexer)
    (h : token st = .ok (some t, st')) :
    st.rem = t.src ++ st'.rem ∧ st'.pos = st.pos + utf8Len t.src ∧ t.src ≠ [] := by
  unfold token at h
  split at h
  · simp at h
  · rename_i c rest heq
    split at h
    · cases h
      refine ⟨?_, ?_, ?_⟩ <;> simp_all [Token.src]
    · split at h
      · cases h
        refine ⟨?_, ?_, ?_⟩ <;> simp_all [Token.src]
      · split at h
        · split at h
          · cases h
          · rename_i v cons rest2 pos2 hsl
            cases h
            obtain ⟨hsp1, hsp2⟩ := stringLoop_split _ _ _ _ _ _ _ hsl
            subst hsp1
            refine ⟨?_, ?_, ?_⟩ <;> simp_all [Token.src] <;> omega
        · split at h
          · cases h
            refine ⟨?_, ?_, ?_⟩ <;>
              simp_all [classifyRun_src, List.takeWhile_append_dropWhile,
                List.takeWhile_cons]
          · cases h

theorem parse_split (st : Lexer) (f : Source) (st' : Lexer)
    (h : parse st = .ok (some f, st')) :
    st.rem = f.src ++ st'.rem ∧ st'.pos = st.pos + utf8Len f.src ∧ f.src ≠ [] := by
  unfold parse at h
  split at h
  · rename_i w st2 hws
    simp only [Except.ok.injEq, Prod.mk.injEq, Option.some.injEq] at h
    obtain ⟨rfl, rfl⟩ := h
    simpa [Source.src] using ws_split st w st2 hws
  · split at h
    · cases h
    · rename_i cmt st2 hcm
      simp only [Except.ok.injEq, Prod.mk.injEq, Option.some.injEq] at h
      obtain ⟨rfl, rfl⟩ := h
      simpa [Source.src] using comment_split st cmt st2 hcm
    · split at h
      · cases h
      · rename_i t st2 htk
        simp only [Except.ok.injEq, Prod.mk.injEq, Option.some.injEq] at h
        obtain ⟨rfl, rfl⟩ := h
        simpa [Source.src] using token_split st t st2 htk
      · split at h <;> cases h

theorem parse_none (st st' : Lexer) (h : parse st = .ok (none, st')) :
    st.rem = [] ∧ st' = st := by
  unfold parse at h
  split at h
  · cases h
  · split at h
    · cases h
    · cases h
    · split at h
      · cases h
      · cases h
      · split at h
        · cases h
        · rename_i heq
          simp only [Except.ok.injEq, Prod.mk.injEq] at h
          exact ⟨heq, h.2.symm⟩

theorem lexAll_split (fuel : Nat) : ∀ (st : Lexer) (frags : List (Nat × Source)) (stf : Lexer),
    lexAll fuel st = .ok (some (frags, stf)) →
    st.rem = (frags.map (fun q => q.2.src)).flatten ∧ stf.rem = [] ∧
    contiguousB st.pos frags = true := by
  induction fuel with
  | zero =>
    intro st frags stf h
    simp [lexAll] at h
  | succ fuel ih =>
    intro st frags stf h
    simp only [lexAll] at h
    split at h
    · cases h
    · rename_i st2 hp
      simp only [Except.ok.injEq, Option.some.injEq, Prod.mk.injEq] at h
      obtain ⟨rfl, rfl⟩ := h
      obtain ⟨h1, h2⟩ := parse_none st st2 hp
      subst h2
      simp [h1, contiguousB]
    · rename_i f st2 hp
      split at h
      · cases h
      · cases h
      · rename_i l stf2 hrec
        simp only [Except.ok.injEq, Option.some.injEq, Prod.mk.injEq] at h
        obtain ⟨rfl, rfl⟩ := h
        obtain ⟨h1, h2, h3⟩ := parse_split st f st2 hp
        obtain ⟨g1, g2, g3⟩ := ih st2 l stf2 hrec
        refine ⟨by rw [h1, g1]; simp, g2, ?_⟩
        simp only [contiguousB, beq_self_eq_true, Bool.true_and, Bool.and_eq_true]
        refine ⟨by simpa using h3, ?_⟩
        rw [← h2]
        exact g3

theorem stringEof_kind (pos : Nat) (m : StrMode) :
    (stringEof pos m).kind.isInvalidDigit = false := by
  rcases m with s | b | ⟨iu, b⟩ | ⟨b, c1⟩ | ⟨iu, b⟩ | ⟨iu, b, n, lastU⟩ <;>
    simp only [stringEof] <;>
    (repeat' split) <;>
    rfl

set_option maxHeartbeats 1600000 in
theorem stringStep_kind (c : Char) (pos : Nat) (m : StrMode) (e : LexError)
    (h : stringStep c pos m = .err e) : e.kind.isInvalidDigit = false := by
  unfold stringStep at h
  rcases m with s | b | ⟨iu, b⟩ | ⟨b, c1⟩ | ⟨iu, b⟩ | ⟨iu, b, n, lastU⟩ <;>
    (repeat' split at h) <;>
    (try cases h) <;>
    rfl

theorem stringLoop_err_kind (rem : List Char) : ∀ (pos : Nat) (m : StrMode) (e : LexError),
    stringLoop rem pos m = .error e → e.kind.isInvalidDigit = false := by
  induction rem with
  | nil =>
    intro pos m e h
    simp only [stringLoop] at h
    cases h
    exact stringEof_kind pos m
  | cons c rest ih =>
    intro pos m e h
    simp only [stringLoop] at h
    split at h
    · rename_i e2 hstep
      cases h
      exact stringStep_kind c pos m _ hstep
    · cases h
    · split at h
      · rename_i e2 hrec
        cases h
        exact ih _ _ _ hrec
      · cases h

theorem comment_err_kind (st : Lexer) (e : LexError) (h : comment st = .error e) :
    e.kind.isInvalidDigit = false := by
  unfold comment at h
  repeat' split at h
  all_goals cases h
  rfl

theorem token_err_kind (st : Lexer) (e : LexError) (h : token st = .error e) :
    e.kind.isInvalidDigit = false := by
  unfold token at h
  split at h
  · cases h
  · rename_i c rest heq
    split at h
    · cases h
    · split at h
      · cases h
      · split at h
        · split at h
          · rename_i e2 hsl
            cases h
            exact stringLoop_err_kind rest (st.pos + 1) _ _ hsl
          · cases h
        · split at h
          · cases h
          · cases h
            rfl

theorem parse_err_kind (st : Lexer) (e : LexError) (h : parse st = .error e) :
    e.kind.isInvalidDigit = false := by
  unfold parse at h
  split at h
  · cases h
  · split at h
    · rename_i e2 hcm
      cases h
      exact comment_err_kind st _ hcm
    · cases h
    · split at h
      · rename_i e2 htk
        cases h
        exact token_err_kind st _ htk
      · cases h
      · split at h
        · cases h
          rfl
        · cases h

theorem lexAll_err_kind (fuel : Nat) : ∀ (st : Lexer) (e : LexError),
    lexAll fuel st = .error e → e.kind.isInvalidDigit = false := by
  induction fuel with
  | zero =>
    intro st e h
    simp [lexAll] at h
  | succ fuel ih =>
    intro st e h
    simp only [lexAll] at h
    split at h
    · rename_i e2 hp
      cases h
      exact parse_err_kind st _ hp
    · cases h
    · split at h
      · rename_i e2 hrec
        cases h
        exact ih _ _ hrec
      · cases h
      · cases h

theorem skipLoop_all_good (good : Char → Bool) (hu : good '_' = false) :
    ∀ l : List Char, (∀ c ∈ l, good c = true) →
    skipUnderscoresLoop good l false = (l, [], false) := by
  intro l
  induction l with
  | nil => intro _; rfl
  | cons c rest ih =>
    intro hall
    have hc : good c = true := hall c (by simp)
    have hcne : ¬c = '_' := by
      intro hh
      rw [hh, hu] at hc
      cases hc
    have hrest := ih (fun d hm => hall d (by simp [hm]))
    unfold skipUnderscoresLoop
    simp [hcne, hc, hrest]

theorem skip_undescores_all_good (good : Char → Bool) (hu : good '_' = false)
    (neg : Bool) (d : Char) (rest : List Char) (hd : good d = true)
    (hall : ∀ c ∈ rest, good c = true) :
    skip_undescores neg good (d :: rest) =
      some (if neg then '-' :: d :: rest else d :: rest, []) := by
  unfold skip_undescores
  simp [hd, skipLoop_all_good good hu rest hall]




/-- C1: for every input string on which the lexer runs to completion
without error (repeated calls to `parse` until it returns no fragment),
concatenating the source spans of all returned fragments in emission order
reproduces the input exactly, and the fragments start at strictly
increasing, contiguous byte offsets with non-empty spans. -/
theorem c1_span_coverage (fuel : Nat) (input : List Char)
    (frags : List (Nat × Source)) (stf : Lexer)
    (h : lexAll fuel ⟨input, 0⟩ = .ok (some (frags, stf))) :
    (frags.map (fun q => q.2.src)).flatten = input ∧ contiguousB 0 frags = true := by
  obtain ⟨h1, h2, h3⟩ := lexAll_split fuel ⟨input, 0⟩ frags stf h
  exact ⟨h1.symm, h3⟩

/-- Witness for C1 at the concrete input `(a) `. -/
theorem c1_span_coverage_witness :
    (([(0, Source.Token (.LParen ['('])), (1, .Token (.Keyword ['a'])),
       (2, .Token (.RParen [')'])), (3, .Whitespace [' '])].map
        (fun q => q.2.src)).flatten = ("(a) ".data)) ∧
    contiguousB 0 [(0, Source.Token (.LParen ['('])), (1, .Token (.Keyword ['a'])),
       (2, .Token (.RParen [')'])), (3, .Whitespace [' '])] = true :=
  c1_span_coverage 10 ("(a) ".data)
    [(0, Source.Token (.LParen ['('])), (1, .Token (.Keyword ['a'])),
     (2, .Token (.RParen [')'])), (3, .Whitespace [' '])] ⟨[], 4⟩ (by decide)

/-- C2 counterexample: the claim says an underscore adjacent to another
underscore makes the run not a number, so `1__0` should lex as a Keyword
or Reserved token; in fact the numeric grammar accepts it and the lexer
returns an Integer token with digits `10` (the code's own test suite
asserts that `+1_0______0_0` lexes as integer `1000`). -/
theorem c2_underscore_counterexample :
    token ⟨("1__0".data), 0⟩ =
      .ok (some (.Integer ⟨("1__0".data), ("10".data), false⟩), ⟨[], 4⟩) := by decide

/-- C2 amended: in a digit run, an underscore at the very start of the run
invalidates it (the first character must be a digit of the active radix),
and a trailing underscore (one not followed by a further digit before the
run ends) invalidates it; but underscores adjacent to other underscores
between digits are allowed and are all removed.  `1_000` lexes as Integer
`1000`, `1__0` as Integer `10`, and `_1` and `1_` as Reserved tokens with
no error. -/
theorem c2_underscore_amended :
    token ⟨("1_000".data), 0⟩ =
      .ok (some (.Integer ⟨("1_000".data), ("1000".data), false⟩), ⟨[], 5⟩) ∧
    token ⟨("1__0".data), 0⟩ =
      .ok (some (.Integer ⟨("1__0".data), ("10".data), false⟩), ⟨[], 4⟩) ∧
    token ⟨("_1".data), 0⟩ = .ok (some (.Reserved ("_1".data)), ⟨[], 2⟩) ∧
    token ⟨("1_".data), 0⟩ = .ok (some (.Reserved ("1_".data)), ⟨[], 2⟩) ∧
    number ("_1".data) = none ∧
    number ("1_".data) = none := by decide

/-- C3: each call to `parse` dispatches in a fixed priority order: first
the whitespace scan, then the comment scan (propagating its error), then
the token scan (propagating its error); if none applies and a character
remains it fails with `Unexpected` at that character's byte offset, and if
no character remains it returns no fragment. -/
theorem c3_dispatch_priority (st : Lexer) :
    (∀ w st2, ws st = (some w, st2) → parse st = .ok (some (.Whitespace w), st2)) ∧
    ((ws st).1 = none →
      (∀ e, comment st = .error e → parse st = .error e) ∧
      (∀ cmt st2, comment st = .ok (some cmt, st2) →
        parse st = .ok (some (.Comment cmt), st2)) ∧
      (∀ st2, comment st = .ok (none, st2) →
        (∀ e, token st = .error e → parse st = .error e) ∧
        (∀ t st3, token st = .ok (some t, st3) →
          parse st = .ok (some (.Token t), st3)) ∧
        (∀ st3, token st = .ok (none, st3) →
          (∀ ch cs, st.rem = ch :: cs → parse st = .error ⟨st.pos, .Unexpected ch⟩) ∧
          (st.rem = [] → parse st = .ok (none, st))))) := by
  have hws : (ws st).1 = none → ws st = (none, (ws st).2) := by
    intro hwsn
    rw [← hwsn]
  constructor
  · intro w st2 h1
    unfold parse
    rw [h1]
  · intro hwsn
    refine ⟨?_, ?_, ?_⟩
    · intro e hcm
      unfold parse
      rw [hws hwsn, hcm]
    · intro cmt st2 hcm
      unfold parse
      rw [hws hwsn, hcm]
    · intro st2 hcm
      refine ⟨?_, ?_, ?_⟩
      · intro e htk
        unfold parse
        rw [hws hwsn, hcm, htk]
      · intro t st3 htk
        unfold parse
        rw [hws hwsn, hcm, htk]
      · intro st3 htk
        constructor
        · intro ch cs hrem
          unfold parse
          rw [hws hwsn, hcm, htk, hrem]
        · intro hrem
          unfold parse
          rw [hws hwsn, hcm, htk, hrem]

/-- Witness for C3: the whitespace branch on ` x`, the comment error
branch on an unterminated block comment, the token branch on `((`, the
error branch on `,` (propagated from the token scan), and the end of
input branch on the empty input. -/
theorem c3_dispatch_priority_witness :
    parse ⟨(" x".data), 0⟩ = .ok (some (.Whitespace [' ']), ⟨['x'], 1⟩) ∧
    parse ⟨("(; ".data), 0⟩ = .error ⟨0, .DanglingBlockComment⟩ ∧
    parse ⟨("((".data), 0⟩ = .ok (some (.Token (.LParen ['('])), ⟨['('], 1⟩) ∧
    parse ⟨(",".data), 0⟩ = .error ⟨0, .Unexpected ','⟩ ∧
    parse (⟨[], 0⟩ : Lexer) = .ok (none, ⟨[], 0⟩) := by
  refine ⟨(c3_dispatch_priority _).1 [' '] ⟨['x'], 1⟩ (by decide), ?_, ?_, ?_, ?_⟩
  · exact ((c3_dispatch_priority _).2 (by decide)).1 _ (by decide)
  · exact (((c3_dispatch_priority _).2 (by decide)).2.2 ⟨("((".data), 0⟩
      (by decide)).2.1 _ ⟨['('], 1⟩ (by decide)
  · exact (((c3_dispatch_priority _).2 (by decide)).2.2 ⟨(",".data), 0⟩
      (by decide)).1 _ (by decide)
  · exact ((((c3_dispatch_priority _).2 (by decide)).2.2 ⟨[], 0⟩
      (by decide)).2.2 ⟨[], 0⟩ (by decide)).2 (by decide)

/-- C4: block comments track nesting depth, with `(;` incrementing and
`;)` decrementing it, the span running from the opening `(;` through the
matching `;)`.  The input `(; (;;) ;)` lexes as a single block comment
spanning the whole text; on `(; ` the scan fails with
`DanglingBlockComment` anchored at offset 0; and in general, on any input
starting with `(;`, the comment scanner either returns a block comment
whose span is an exact prefix of the input, or fails with
`DanglingBlockComment` anchored at the offset of the opening `(;`. -/
theorem c4_block_comment_nesting :
    parse ⟨("(; (;;) ;)".data), 0⟩ =
      .ok (some (.Comment (.Block ("(; (;;) ;)".data))), ⟨[], 10⟩) ∧
    parse ⟨("(; ".data), 0⟩ = .error ⟨0, .DanglingBlockComment⟩ ∧
    ∀ (rest : List Char) (pos : Nat),
      (∃ a b, blockComment rest 1 = some (a, b) ∧ rest = a ++ b ∧
        comment ⟨'(' :: ';' :: rest, pos⟩ =
          .ok (some (.Block ('(' :: ';' :: a)), ⟨b, pos + 2 + utf8Len a⟩)) ∨
      (blockComment rest 1 = none ∧
        comment ⟨'(' :: ';' :: rest, pos⟩ = .error ⟨pos, .DanglingBlockComment⟩) := by
  refine ⟨by decide, by decide, ?_⟩
  intro rest pos
  rcases hbc : blockComment rest 1 with _ | ⟨a, b⟩
  · right
    refine ⟨rfl, ?_⟩
    unfold comment
    simp [hbc]
  · left
    refine ⟨a, b, rfl, blockComment_split rest 1 a b hbc, ?_⟩
    unfold comment
    simp [hbc]

/-- C5: for a maximal identifier character run, classification proceeds in
order: a successful numeric parse wins; otherwise a run starting with `$`
of length greater than one is an `Id`; otherwise a run starting with an
ASCII lowercase letter is a `Keyword`; otherwise the run is `Reserved`.
The classifier never returns an error for an identifier character run, and
a lone `$` is `Reserved`, not `Id`. -/
theorem c5_classifier_order (st : Lexer) (c : Char) (rest : List Char)
    (hrem : st.rem = c :: rest) (hc : is_idchar c = true) :
    (∀ t, number (st.rem.takeWhile is_idchar) = some t →
      token st = .ok (some t, ⟨st.rem.dropWhile is_idchar,
        st.pos + utf8Len (st.rem.takeWhile is_idchar)⟩)) ∧
    (number (st.rem.takeWhile is_idchar) = none →
      ((c = '$' ∧ 1 < (st.rem.takeWhile is_idchar).length) →
        token st = .ok (some (.Id (st.rem.takeWhile is_idchar)),
          ⟨st.rem.dropWhile is_idchar,
           st.pos + utf8Len (st.rem.takeWhile is_idchar)⟩)) ∧
      (¬(c = '$' ∧ 1 < (st.rem.takeWhile is_idchar).length) →
        ('a' ≤ c && c ≤ 'z') = true →
        token st = .ok (some (.Keyword (st.rem.takeWhile is_idchar)),
          ⟨st.rem.dropWhile is_idchar,
           st.pos + utf8Len (st.rem.takeWhile is_idchar)⟩)) ∧
      (¬(c = '$' ∧ 1 < (st.rem.takeWhile is_idchar).length) →
        ('a' ≤ c && c ≤ 'z') = false →
        token st = .ok (some (.Reserved (st.rem.takeWhile is_idchar)),
          ⟨st.rem.dropWhile is_idchar,
           st.pos + utf8Len (st.rem.takeWhile is_idchar)⟩))) ∧
    token ⟨['$', ' '], 0⟩ = .ok (some (.Reserved ['$']), ⟨[' '], 1⟩) := by
  have h1 : ¬c = '(' := by
    intro hh
    rw [hh] at hc
    exact absurd hc (by decide)
  have h2 : ¬c = ')' := by
    intro hh
    rw [hh] at hc
    exact absurd hc (by decide)
  have h3 : ¬c = '"' := by
    intro hh
    rw [hh] at hc
    exact absurd hc (by decide)
  have htok : token st = .ok (some (classifyRun c (st.rem.takeWhile is_idchar)),
      ⟨st.rem.dropWhile is_idchar, st.pos + utf8Len (st.rem.takeWhile is_idchar)⟩) := by
    unfold token
    rw [hrem]
    simp [h1, h2, h3, hc, ← hrem]
  refine ⟨?_, ?_, by decide⟩
  · intro t hnum
    rw [htok]
    simp [classifyRun, hnum]
  · intro hnone
    refine ⟨?_, ?_, ?_⟩
    · intro hid
      rw [htok]
      simp [classifyRun, hnone, hid]
    · intro hnid hkw
      rw [htok]
      simp [classifyRun, hnone, hnid, hkw]
    · intro hnid hkw
      rw [htok]
      simp [classifyRun, hnone, hnid, hkw]

/-- Witness for C5: on `ab ` the run `ab` fails the numeric grammar and is
classified as a keyword. -/
theorem c5_classifier_order_witness :
    token ⟨("ab ".data), 0⟩ = .ok (some (.Keyword ("ab".data)), ⟨[' '], 2⟩) := by
  have h := ((c5_classifier_order ⟨("ab ".data), 0⟩ 'a' ("b ".data) (by decide)
    (by decide)).2.1 (by decide)).2.1 (by decide) (by decide)
  exact h


/-- C6: after the integral (and optional fractional) digit runs, a float
exponent is introduced by `e`/`E` for decimal literals and `p`/`P` for
hexadecimal literals, followed by an optional sign and a mandatory
exponent digit run of decimal digits regardless of the literal's radix;
leftover characters make the numeric attempt fail with reclassification
and no error.  Concretely, `1.2e3` and `0x1p-24` produce the claimed
shapes, `0x1pff` fails (hex digits are not decimal), `1e` fails (the
exponent run is mandatory), `1.2p3` fails (wrong marker for the radix),
and `1e2f` fails (leftover character). -/
theorem c6_float_exponent :
    (∀ (e1 : Char) (es : List Char), e1.isDigit = true → (∀ c ∈ es, c.isDigit = true) →
      number ('1' :: 'e' :: e1 :: es) =
        some (.Float ⟨'1' :: 'e' :: e1 :: es, .Val false ['1'] none (some (e1 :: es))⟩) ∧
      number ('0' :: 'x' :: '1' :: 'p' :: '-' :: e1 :: es) =
        some (.Float ⟨'0' :: 'x' :: '1' :: 'p' :: '-' :: e1 :: es,
          .Val true ['1'] none (some ('-' :: e1 :: es))⟩)) ∧
    number ("1.2e3".data) =
      some (.Float ⟨("1.2e3".data), .Val false ("1".data) (some ("2".data)) (some ("3".data))⟩) ∧
    number ("0x1p-24".data) =
      some (.Float ⟨("0x1p-24".data), .Val true ("1".data) none (some ("-24".data))⟩) ∧
    number ("0x1pff".data) = none ∧
    number ("1e".data) = none ∧
    number ("1.2p3".data) = none ∧
    number ("1e2f".data) = none := by
  refine ⟨?_, by decide, by decide, by decide, by decide, by decide, by decide⟩
  intro e1 es h1 hall
  have hne1 : ¬e1 = '-' := by
    intro hh
    rw [hh] at h1
    exact absurd h1 (by decide)
  have hne2 : ¬e1 = '+' := by
    intro hh
    rw [hh] at h1
    exact absurd h1 (by decide)
  have hskip := skip_undescores_all_good Char.isDigit (by decide) false e1 es h1 hall
  have hskipn := skip_undescores_all_good Char.isDigit (by decide) true e1 es h1 hall
  have hb : skip_undescores false Char.isDigit ('1' :: 'e' :: e1 :: es) =
      some (['1'], 'e' :: e1 :: es) := by
    simp +decide [skip_undescores, skipUnderscoresLoop]
  have hb2 : skip_undescores false isHexDigit ('1' :: 'p' :: '-' :: e1 :: es) =
      some (['1'], 'p' :: '-' :: e1 :: es) := by
    simp +decide [skip_undescores, skipUnderscoresLoop]
  constructor
  · unfold number
    simp +decide [List.take_succ_cons, hb, hne1, hne2, hskip]
  · unfold number
    simp +decide [List.take_succ_cons, hb2, hskipn]

/-- Witness for C6: the general exponent clauses instantiated with the
exponent digits `2` and `4`. -/
theorem c6_float_exponent_witness :
    number ('1' :: 'e' :: '2' :: ['4']) =
      some (.Float ⟨'1' :: 'e' :: '2' :: ['4'], .Val false ['1'] none (some ('2' :: ['4']))⟩) ∧
    number ('0' :: 'x' :: '1' :: 'p' :: '-' :: '2' :: ['4']) =
      some (.Float ⟨'0' :: 'x' :: '1' :: 'p' :: '-' :: '2' :: ['4'],
        .Val true ['1'] none (some ('-' :: '2' :: ['4']))⟩) :=
  c6_float_exponent.1 '2' ['4'] (by decide) (by decide)

/-- C7: a raw run `nan:0x` followed by a non-empty hexadecimal digit run
and nothing else lexes as a NaN float whose payload is the run's value as
an unsigned 64-bit magnitude with underscores removed; if the magnitude
overflows 64 bits, the numeric attempt fails and the run reclassifies as a
Keyword with no error raised — in contrast to unicode string escapes,
where magnitude overflow raises a hard `NumberTooBig` error. -/
theorem c7_nan_payload :
    (∀ (d : Char) (hs : List Char), isHexDigit d = true →
      (∀ c ∈ hs, isHexDigit c = true) →
      (d :: hs).foldl (fun a c => 16 * a + to_hex c) 0 < 2 ^ 64 →
      number ('n' :: 'a' :: 'n' :: ':' :: '0' :: 'x' :: d :: hs) =
        some (.Float ⟨'n' :: 'a' :: 'n' :: ':' :: '0' :: 'x' :: d :: hs,
          .Nan (some ((d :: hs).foldl (fun a c => 16 * a + to_hex c) 0)) false⟩)) ∧
    number ("nan:0x7f_ffff".data) =
      some (.Float ⟨("nan:0x7f_ffff".data), .Nan (some 0x7fffff) false⟩) ∧
    number ("+nan:0x1".data) =
      some (.Float ⟨("+nan:0x1".data), .Nan (some 1) false⟩) ∧
    number ("nan:0xfffffffffffffffff".data) = none ∧
    token ⟨("nan:0xfffffffffffffffff".data), 0⟩ =
      .ok (some (.Keyword ("nan:0xfffffffffffffffff".data)), ⟨[], 23⟩) ∧
    parse ⟨("\"\\u\x7bfffffffffffffffff\x7d\"".data), 0⟩ =
      .error ⟨12, .NumberTooBig⟩ := by
  refine ⟨?_, by decide, by decide, by decide, by decide, by decide⟩
  intro d hs hd hall hlt
  have hskip := skip_undescores_all_good isHexDigit (by decide) false d hs hd hall
  unfold number
  simp +decide [List.take_succ_cons, hskip]
  simpa using hlt

/-- Witness for C7: the general NaN payload clause at `nan:0x7f`. -/
theorem c7_nan_payload_witness :
    number ('n' :: 'a' :: 'n' :: ':' :: '0' :: 'x' :: '7' :: ['f']) =
      some (.Float ⟨'n' :: 'a' :: 'n' :: ':' :: '0' :: 'x' :: '7' :: ['f'],
        .Nan (some (('7' :: ['f']).foldl (fun a c => 16 * a + to_hex c) 0)) false⟩) :=
  c7_nan_payload.1 '7' ['f'] (by decide) (by decide) (by decide)

/-- C8: inside a string literal, a unicode escape reads hexadecimal digits
up to a closing brace forming an unsigned value; an invalid unicode scalar
fails with `InvalidUnicodeValue` of that value, magnitude overflow fails
with `NumberTooBig`, a missing opening or closing brace fails with
`Expected`, any unrecognized character after the backslash fails with
`InvalidStringEscape`, and a lone opening quote fails with
`UnexpectedEof`; a valid escape decodes to the scalar's UTF-8 bytes. -/
theorem c8_string_escape_errors :
    parse ⟨("\"\\u\x7bffffffff\x7d\"".data), 0⟩ =
      .error ⟨2, .InvalidUnicodeValue 0xffffffff⟩ ∧
    parse ⟨("\"".data), 0⟩ = .error ⟨1, .UnexpectedEof⟩ ∧
    parse ⟨("\"\\u\x7bfffffffffffffffff\x7d\"".data), 0⟩ = .error ⟨12, .NumberTooBig⟩ ∧
    parse ⟨("\"\\u\"".data), 0⟩ = .error ⟨3, .Expected lbrace '"'⟩ ∧
    parse ⟨("\"\\u\x7b1\"".data), 0⟩ = .error ⟨5, .Expected rbrace '"'⟩ ∧
    parse ⟨("\"\\x\"".data), 0⟩ = .error ⟨2, .InvalidStringEscape 'x'⟩ ∧
    parse ⟨("\"\\u\x7b0f3\x7d\"".data), 0⟩ =
      .ok (some (.Token (.String (.owned [195, 179]) ("\"\\u\x7b0f3\x7d\"".data))), ⟨[], 9⟩) ∧
    parse ⟨("\"\\u\x7b1\x7d\"".data), 0⟩ =
      .ok (some (.Token (.String (.owned [1]) ("\"\\u\x7b1\x7d\"".data))), ⟨[], 7⟩) := by
  decide

/-- C9: the lexer never returns a `LexError` whose kind is `InvalidDigit`:
neither a single `parse` call from any state, nor any sequence of `parse`
calls, can produce it — every digit-validity failure of the numeric
grammar falls through to reclassification instead of raising an error. -/
theorem c9_invalid_digit_unreachable (st : Lexer) :
    noInvalidDigit (parse st) = true ∧
    ∀ fuel, noInvalidDigit (lexAll fuel st) = true := by
  constructor
  · rcases hp : parse st with e | pr
    · simpa [noInvalidDigit] using parse_err_kind st e hp
    · simp [noInvalidDigit]
  · intro fuel
    rcases hl : lexAll fuel st with e | pr
    · simpa [noInvalidDigit] using lexAll_err_kind fuel st e hl
    · simp [noInvalidDigit]

theorem stringLoop_no_escape (between : List Char) : ∀ (acc rest : List Char) (pos : Nat),
    (∀ c ∈ between, ¬c = '"' ∧ ¬c = '\\' ∧ ¬(c.toNat < 0x20 ∨ c.toNat = 0x7f)) →
    stringLoop (between ++ '"' :: rest) pos (.normal (.start acc)) =
      .ok (.borrowed (acc ++ between), between ++ ['"'], rest, pos + utf8Len between + 1) := by
  induction between with
  | nil =>
    intro acc rest pos _
    simp +decide [stringLoop, stringStep, StrState.finish]
  | cons c bt ih =>
    intro acc rest pos hall
    obtain ⟨hq, hbs, hctl⟩ := hall c (by simp)
    have hstep : stringStep c pos (.normal (.start acc)) =
        .cont (.normal (.start (acc ++ [c]))) := by
      unfold stringStep
      simp [hq, hbs, hctl]
    have hrec := ih (acc ++ [c]) rest (pos + c.utf8Size)
      (fun d hm => hall d (by simp [hm]))
    simp only [List.cons_append, stringLoop, hstep, hrec]
    simp [hrec, List.append_assoc, Nat.add_assoc]

/-- C10: a string literal whose source text contains no backslash decodes
to the borrowed, zero-copy view of the characters strictly between the
quotes — no byte buffer is materialized — and its byte payload is exactly
the UTF-8 bytes of that span (non-ASCII characters pass through as their
UTF-8 bytes). -/
theorem c10_string_zero_copy (between rest : List Char) (pos : Nat)
    (h : ∀ c ∈ between, ¬c = '"' ∧ ¬c = '\\' ∧ ¬(c.toNat < 0x20 ∨ c.toNat = 0x7f)) :
    token ⟨'"' :: (between ++ '"' :: rest), pos⟩ =
      .ok (some (.String (.borrowed between) ('"' :: (between ++ ['"']))),
        ⟨rest, pos + 1 + utf8Len between + 1⟩) ∧
    (StrVal.borrowed between).bytes = (between.map utf8Bytes).flatten := by
  refine ⟨?_, rfl⟩
  unfold token
  dsimp only
  rw [stringLoop_no_escape between [] rest (pos + 1) h]
  simp +decide

/-- Witness for C10: a string containing non-ASCII characters decodes
zero-copy. -/
theorem c10_string_zero_copy_witness :
    token ⟨'"' :: (['a', 'é', '☃'] ++ '"' :: []), 0⟩ =
      .ok (some (.String (.borrowed ['a', 'é', '☃'])
        ('"' :: (['a', 'é', '☃'] ++ ['"']))),
        ⟨[], 0 + 1 + utf8Len ['a', 'é', '☃'] + 1⟩) ∧
    (StrVal.borrowed ['a', 'é', '☃']).bytes =
      (['a', 'é', '☃'].map utf8Bytes).flatten :=
  c10_string_zero_copy ['a', 'é', '☃'] [] 0 (by decide)

end Wast
